import Mathlib

/-!
Verification of the FONTX2 bitmap font decoder (`src/kanakanji/fontx.rs`).

The decoder parses a FONTX2 font blob into a descriptor (`FONTX::new`),
resolves a character to a byte offset into the glyph bitmap region
(`FONTX::get_sjis_offset`), and copies one glyph into a caller buffer
(`render`).

Shallow embedding conventions:
  * Bytes are `Nat` values; reads apply `% 256` to keep u8 semantics.
  * The font blob (`rom`) is a `List Nat`.
  * Fallible operations return `Option (Except e a)`; the outer `none`
    marks a Rust panic or an out-of-bounds raw read (as in the 18-byte
    header copy, which is an unchecked raw-pointer copy in the source),
    while `some (Except.error e)` is an ordinary error result.
  * u16 arithmetic overflow in `eb - sb + 1` (debug-build panic in Rust)
    is modelled by the explicit underflow/overflow checks in `scanBlocks`
    returning `none`.
  * The Shift-JIS encoder from `encoding_rs` is external to the crate;
    its per-character outcome is passed in as an `EncodeOutcome` value
    describing the bytes it wrote into the 2-byte output array (which
    the source initialises to `[0, 0]`).
-/

/-- Modelled from the spec: `InitError` of §7 (crate `common` module is not in
the sources); `InvalidFormat` covers magic mismatch and unrecognized
`code_flag`. -/
inductive InitializationError
  | InvalidFormat
deriving DecidableEq, Repr

/-- Modelled from the spec: `RenderError` of §7 (crate `common` module is not
in the sources). -/
inductive RenderFailureReason
  | UnsupportedCharacter
  | UnknownError
deriving DecidableEq, Repr

/-- `FONTXCode` from the source: addressing mode of the font. -/
inductive FONTXCode
  | ANK
  | ShiftJIS
deriving DecidableEq, Repr

/-- `FONTX` descriptor from the source (`rom`, `code`, `width`, `height`,
`char_sz`, `codeblocks`, `headersz`). -/
structure FONTX where
  rom : List Nat
  code : FONTXCode
  width : Nat
  height : Nat
  char_sz : Nat
  codeblocks : Nat
  headersz : Nat
deriving DecidableEq, Repr

instance {e a : Type} [DecidableEq e] [DecidableEq a] : DecidableEq (Except e a) := fun x y =>
  match x, y with
  | Except.ok u, Except.ok v =>
    if h : u = v then Decidable.isTrue (by rw [h])
    else Decidable.isFalse (fun hh => by cases hh; exact h rfl)
  | Except.ok _, Except.error _ => Decidable.isFalse (fun hh => by cases hh)
  | Except.error _, Except.ok _ => Decidable.isFalse (fun hh => by cases hh)
  | Except.error u, Except.error v =>
    if h : u = v then Decidable.isTrue (by rw [h])
    else Decidable.isFalse (fun hh => by cases hh; exact h rfl)

/-- Byte `i` of the blob (u8 semantics). -/
def byteAt (rom : List Nat) (i : Nat) : Nat := rom.getD i 0 % 256

/-- The ASCII magic `FONTX2` checked by `FONTX::new`. -/
def magicFONTX2 : List Nat := [0x46, 0x4f, 0x4e, 0x54, 0x58, 0x32]

/-- `FONTX::new` from the source: copies the first 18 bytes of the blob into
the packed header (an unchecked raw-pointer copy — reading a blob shorter
than 18 bytes is out of bounds, modelled as `none`), checks the magic,
dispatches on `code_flag`, and builds the descriptor. -/
def FONTX.new (rom : List Nat) : Option (Except InitializationError FONTX) :=
  if rom.length < 18 then none
  else if [byteAt rom 0, byteAt rom 1, byteAt rom 2, byteAt rom 3,
           byteAt rom 4, byteAt rom 5] = magicFONTX2 then
    match byteAt rom 16 with
    | 0 => some (Except.ok
        { rom := rom
          code := FONTXCode.ANK
          width := byteAt rom 14
          height := byteAt rom 15
          char_sz := (byteAt rom 14 + 7) / 8 * byteAt rom 15
          codeblocks := 0
          headersz := 17 })
    | 1 => some (Except.ok
        { rom := rom
          code := FONTXCode.ShiftJIS
          width := byteAt rom 14
          height := byteAt rom 15
          char_sz := (byteAt rom 14 + 7) / 8 * byteAt rom 15
          codeblocks := byteAt rom 17
          headersz := 18 + byteAt rom 17 * 4 })
    | _ => some (Except.error InitializationError.InvalidFormat)
  else some (Except.error InitializationError.InvalidFormat)

/-- Outcome of the external Shift-JIS encoder for one character: the bytes it
wrote into the 2-byte output array, or its error report. -/
inductive EncodeOutcome
  | written1 (b : Nat)
  | written2 (b0 b1 : Nat)
  | unmappable
  | outputFull
deriving DecidableEq, Repr

/-- Lines 96-106 of the source: the 2-byte output array starts as `[0, 0]`;
a successful encode leaves `(sjis_arr[0], sjis_arr[1])`, `OutputFull` maps to
`UnknownError`, `Unmappable` to `UnsupportedCharacter`. -/
def sjisArr : EncodeOutcome → Except RenderFailureReason (Nat × Nat)
  | EncodeOutcome.written1 b => Except.ok (b % 256, 0)
  | EncodeOutcome.written2 b0 b1 => Except.ok (b0 % 256, b1 % 256)
  | EncodeOutcome.outputFull => Except.error RenderFailureReason.UnknownError
  | EncodeOutcome.unmappable => Except.error RenderFailureReason.UnsupportedCharacter

/-- Little-endian start bound of table entry `blk`:
`(rom[18+4*blk+1] << 8) + rom[18+4*blk]`. -/
def entryStart (rom : List Nat) (blk : Nat) : Nat :=
  byteAt rom (18 + 4 * blk + 1) * 256 + byteAt rom (18 + 4 * blk)

/-- Little-endian end bound of table entry `blk`:
`(rom[18+4*blk+3] << 8) + rom[18+4*blk+2]`. -/
def entryEnd (rom : List Nat) (blk : Nat) : Nat :=
  byteAt rom (18 + 4 * blk + 3) * 256 + byteAt rom (18 + 4 * blk + 2)

/-- The `for blk in 0..codeblocks` loop of `get_sjis_offset` (Shift-JIS arm),
as recursion on the number of remaining blocks. `none` models a panic:
either an out-of-range index into `rom`, or u16 under/overflow in
`eb - sb + 1` (checked arithmetic, as in a debug build). -/
def scanBlocks (rom : List Nat) (sjis cs hs : Nat) : Nat → Nat → Nat →
    Option (Except RenderFailureReason Nat)
  | _, _, 0 => some (Except.error RenderFailureReason.UnsupportedCharacter)
  | blk, cc, n + 1 =>
    if 18 + 4 * blk + 3 < rom.length then
      let sb := entryStart rom blk
      let eb := entryEnd rom blk
      if sb ≤ sjis ∧ sjis ≤ eb then
        some (Except.ok (hs + (cc + (sjis - sb)) * cs))
      else if eb < sb then none
      else if 65535 < eb - sb + 1 then none
      else scanBlocks rom sjis cs hs (blk + 1) (cc + (eb - sb + 1)) n
    else none

/-- Lines 110-134 of the source: dispatch on the addressing mode once the
16-bit code unit is known. -/
def modeDispatch (f : FONTX) (sjis : Nat) : Option (Except RenderFailureReason Nat) :=
  match f.code with
  | FONTXCode.ANK =>
    if sjis ≤ 0xFF then some (Except.ok (f.headersz + sjis * f.char_sz))
    else some (Except.error RenderFailureReason.UnsupportedCharacter)
  | FONTXCode.ShiftJIS => scanBlocks f.rom sjis f.char_sz f.headersz 0 0 f.codeblocks

/-- `FONTX::get_sjis_offset` from the source: reject scalars above `0xFFFF`,
run the encoder, assemble `sjis_code = (sjis_arr[0] << 8) + sjis_arr[1]`,
then dispatch on the mode. -/
def get_sjis_offset (f : FONTX) (c : Nat) (enc : EncodeOutcome) :
    Option (Except RenderFailureReason Nat) :=
  if 0xFFFF < c then some (Except.error RenderFailureReason.UnsupportedCharacter)
  else
    match sjisArr enc with
    | Except.error e => some (Except.error e)
    | Except.ok (a0, a1) => modeDispatch f (a0 * 256 + a1)

/-- `render` from the source: scalar check, offset resolution, then
`buf[..char_sz].clone_from_slice(&rom[off..char_sz+off])`. Both slicings are
bounds-checked by Rust; an out-of-range slice panics (`none`). On success the
copy result is the written buffer. -/
def render (f : FONTX) (c : Nat) (enc : EncodeOutcome) (buf : List Nat) :
    Option (Except RenderFailureReason ((Nat × Nat) × List Nat)) :=
  if 0xFFFF < c then some (Except.error RenderFailureReason.UnsupportedCharacter)
  else
    match get_sjis_offset f c enc with
    | none => none
    | some (Except.error e) => some (Except.error e)
    | some (Except.ok off) =>
      if f.char_sz ≤ buf.length then
        if f.char_sz + off ≤ f.rom.length then
          some (Except.ok ((f.width, f.height),
            (f.rom.drop off).take f.char_sz ++ buf.drop f.char_sz))
        else none
      else none

/-- The code-block table entries `[start, end]` read from the blob, `n`
entries beginning at block index `blk`. -/
def tableEntriesFrom (rom : List Nat) : Nat → Nat → List (Nat × Nat)
  | _, 0 => []
  | blk, n + 1 => (entryStart rom blk, entryEnd rom blk) :: tableEntriesFrom rom (blk + 1) n

/-- Modelled from the spec: the §4.2 step-4 table walk over `[start, end]`
entries with the running accumulator `charcnt`; `some` is the resolved
offset, `none` means no entry matched. -/
def specResolveWalk (hs cs sjis : Nat) : List (Nat × Nat) → Nat → Option Nat
  | [], _ => none
  | (s, e) :: rest, cc =>
    if s ≤ sjis ∧ sjis ≤ e then some (hs + (cc + (sjis - s)) * cs)
    else specResolveWalk hs cs sjis rest (cc + (e - s + 1))

/-- Wrap the spec-side walk result the way `get_sjis_offset` reports it. -/
def wrapWalk : Option Nat → Option (Except RenderFailureReason Nat)
  | some off => some (Except.ok off)
  | none => some (Except.error RenderFailureReason.UnsupportedCharacter)

/-- A concrete 18-byte ANK blob: magic, 8-byte name, width 8, height 8,
`code_flag` 0, trailing byte 0.  No bitmap data follows the header. -/
def ankRom : List Nat :=
  [0x46, 0x4f, 0x4e, 0x54, 0x58, 0x32, 0, 0, 0, 0, 0, 0, 0, 0, 8, 8, 0, 0]

/-- The descriptor `FONTX::new` builds from `ankRom`. -/
def ankD : FONTX :=
  { rom := ankRom, code := FONTXCode.ANK, width := 8, height := 8,
    char_sz := 8, codeblocks := 0, headersz := 17 }

/-- A concrete Shift-JIS blob: magic, name, width 8, height 8, `code_flag` 1,
2 code blocks, then the table entries `[0x8140, 0x8150]` and
`[0x8240, 0x8250]` (little-endian). -/
def sjisRom : List Nat :=
  [0x46, 0x4f, 0x4e, 0x54, 0x58, 0x32, 0, 0, 0, 0, 0, 0, 0, 0, 8, 8, 1, 2,
   0x40, 0x81, 0x50, 0x81, 0x40, 0x82, 0x50, 0x82]

/-- The descriptor `FONTX::new` builds from `sjisRom`. -/
def sjisD : FONTX :=
  { rom := sjisRom, code := FONTXCode.ShiftJIS, width := 8, height := 8,
    char_sz := 8, codeblocks := 2, headersz := 26 }

/-- A Shift-JIS blob whose single table entry is inverted: start 1, end 0. -/
def badRom : List Nat :=
  [0x46, 0x4f, 0x4e, 0x54, 0x58, 0x32, 0, 0, 0, 0, 0, 0, 0, 0, 8, 8, 1, 1,
   0x01, 0x00, 0x00, 0x00]

/-- The descriptor `FONTX::new` builds from `badRom`. -/
def badD : FONTX :=
  { rom := badRom, code := FONTXCode.ShiftJIS, width := 8, height := 8,
    char_sz := 8, codeblocks := 1, headersz := 22 }

/-- An 18-byte blob with valid magic but `code_flag` 2. -/
def flag2Rom : List Nat :=
  [0x46, 0x4f, 0x4e, 0x54, 0x58, 0x32, 0, 0, 0, 0, 0, 0, 0, 0, 8, 8, 2, 0]

example : FONTX.new ankRom = some (Except.ok ankD) := by decide
example : FONTX.new sjisRom = some (Except.ok sjisD) := by decide
example : FONTX.new badRom = some (Except.ok badD) := by decide

/-! ## Helper lemmas -/

lemma byteAt_lt (rom : List Nat) (i : Nat) : byteAt rom i < 256 :=
  Nat.mod_lt _ (by omega)

lemma entryStart_le (rom : List Nat) (blk : Nat) : entryStart rom blk ≤ 65535 := by
  have h1 := byteAt_lt rom (18 + 4 * blk + 1)
  have h2 := byteAt_lt rom (18 + 4 * blk)
  unfold entryStart
  omega

lemma entryEnd_le (rom : List Nat) (blk : Nat) : entryEnd rom blk ≤ 65535 := by
  have h1 := byteAt_lt rom (18 + 4 * blk + 3)
  have h2 := byteAt_lt rom (18 + 4 * blk + 2)
  unfold entryEnd
  omega

lemma sjisArr_lt {enc : EncodeOutcome} {a0 a1 : Nat}
    (h : sjisArr enc = Except.ok (a0, a1)) : a0 < 256 ∧ a1 < 256 := by
  cases enc <;> simp [sjisArr] at h <;>
    rcases h with ⟨h0, h1⟩ <;> subst h0 <;> subst h1 <;>
    exact ⟨Nat.mod_lt _ (by omega), by omega⟩

lemma tableEntriesFrom_succ (rom : List Nat) (blk n : Nat) :
    tableEntriesFrom rom blk (n + 1) =
      (entryStart rom blk, entryEnd rom blk) :: tableEntriesFrom rom (blk + 1) n := rfl

/-- The compiled loop agrees with the spec-side table walk whenever the table
lies inside the blob, every entry is well-formed, and the code unit fits in
16 bits. -/
lemma scanBlocks_eq_walk (rom : List Nat) (sjis cs hs : Nat) (h16 : sjis < 65536) :
    ∀ n blk cc, 18 + 4 * (blk + n) ≤ rom.length →
      (∀ p ∈ tableEntriesFrom rom blk n, p.1 ≤ p.2) →
      scanBlocks rom sjis cs hs blk cc n =
        wrapWalk (specResolveWalk hs cs sjis (tableEntriesFrom rom blk n) cc) := by
  intro n
  induction n with
  | zero =>
    intro blk cc _ _
    rfl
  | succ n ih =>
    intro blk cc hlen hwf
    have hb : 18 + 4 * blk + 3 < rom.length := by omega
    have hmem : (entryStart rom blk, entryEnd rom blk) ∈ tableEntriesFrom rom blk (n + 1) := by
      rw [tableEntriesFrom_succ]
      exact List.mem_cons_self _ _
    have hwf0 : entryStart rom blk ≤ entryEnd rom blk := hwf _ hmem
    rw [tableEntriesFrom_succ]
    by_cases hm : entryStart rom blk ≤ sjis ∧ sjis ≤ entryEnd rom blk
    · simp only [scanBlocks, if_pos hb, if_pos hm, specResolveWalk, wrapWalk]
    · have hnu : ¬ entryEnd rom blk < entryStart rom blk := by omega
      have hno : ¬ 65535 < entryEnd rom blk - entryStart rom blk + 1 := by
        have h1 := entryStart_le rom blk
        have h2 := entryEnd_le rom blk
        omega
      have hrec := ih (blk + 1) (cc + (entryEnd rom blk - entryStart rom blk + 1))
        (by omega)
        (fun p hp => hwf p (by rw [tableEntriesFrom_succ]; exact List.mem_cons_of_mem _ hp))
      simp only [scanBlocks, if_pos hb, if_neg hm, if_neg hnu, if_neg hno,
        specResolveWalk, hrec]

/-- If no entry covers the code unit, the spec-side walk finds nothing. -/
lemma specResolveWalk_none (hs cs sjis : Nat) :
    ∀ (L : List (Nat × Nat)) (cc : Nat),
      (∀ p ∈ L, ¬(p.1 ≤ sjis ∧ sjis ≤ p.2)) →
      specResolveWalk hs cs sjis L cc = none := by
  intro L
  induction L with
  | nil => intro cc _; rfl
  | cons hd tl ih =>
    intro cc hno
    obtain ⟨s, e⟩ := hd
    have hm : ¬(s ≤ sjis ∧ sjis ≤ e) := hno (s, e) (List.mem_cons_self _ _)
    simp only [specResolveWalk, if_neg hm]
    exact ih _ (fun p hp => hno p (List.mem_cons_of_mem _ hp))

/-- Two code units `u ≤ v` covered by exactly the same entries resolve to
offsets that differ by `(v - u) * cs`. -/
lemma specResolveWalk_mono (hs cs u v : Nat) (huv : u ≤ v) :
    ∀ (L : List (Nat × Nat)) (cc : Nat),
      (∀ p ∈ L, (p.1 ≤ u ∧ u ≤ p.2) ↔ (p.1 ≤ v ∧ v ≤ p.2)) →
      (∃ p ∈ L, p.1 ≤ u ∧ u ≤ p.2) →
      ∃ offU, specResolveWalk hs cs u L cc = some offU ∧
        specResolveWalk hs cs v L cc = some (offU + (v - u) * cs) := by
  intro L
  induction L with
  | nil =>
    intro cc _ hex
    rcases hex with ⟨p, hp, _⟩
    cases hp
  | cons hd tl ih =>
    intro cc hiff hex
    obtain ⟨s, e⟩ := hd
    by_cases hm : s ≤ u ∧ u ≤ e
    · have hmv : s ≤ v ∧ v ≤ e := (hiff (s, e) (List.mem_cons_self _ _)).mp hm
      refine ⟨hs + (cc + (u - s)) * cs, ?_, ?_⟩
      · simp only [specResolveWalk, if_pos hm]
      · simp only [specResolveWalk, if_pos hmv]
        have hcc : cc + (v - s) = (cc + (u - s)) + (v - u) := by omega
        rw [hcc, Nat.add_mul, ← Nat.add_assoc]
    · have hmv : ¬(s ≤ v ∧ v ≤ e) := fun h =>
        hm ((hiff (s, e) (List.mem_cons_self _ _)).mpr h)
      have hex2 : ∃ p ∈ tl, p.1 ≤ u ∧ u ≤ p.2 := by
        rcases hex with ⟨p, hp, hcov⟩
        rcases List.mem_cons.mp hp with hp0 | hp1
        · subst hp0; exact absurd hcov hm
        · exact ⟨p, hp1, hcov⟩
      have := ih (cc + (e - s + 1)) (fun p hp => hiff p (List.mem_cons_of_mem _ hp)) hex2
      simpa only [specResolveWalk, if_neg hm, if_neg hmv] using this

/-- `get_sjis_offset` in Shift-JIS mode, with encoder output `(a0, a1)`,
equals the wrapped spec-side walk over the table read from the blob. -/
lemma get_sjis_offset_eq_walk (f : FONTX) (c : Nat) (enc : EncodeOutcome)
    (a0 a1 : Nat) (hmode : f.code = FONTXCode.ShiftJIS)
    (hlen : 18 + 4 * f.codeblocks ≤ f.rom.length)
    (hwf : ∀ p ∈ tableEntriesFrom f.rom 0 f.codeblocks, p.1 ≤ p.2)
    (hc : c ≤ 0xFFFF) (henc : sjisArr enc = Except.ok (a0, a1)) :
    get_sjis_offset f c enc =
      wrapWalk (specResolveWalk f.headersz f.char_sz (a0 * 256 + a1)
        (tableEntriesFrom f.rom 0 f.codeblocks) 0) := by
  have hlt := sjisArr_lt henc
  have h16 : a0 * 256 + a1 < 65536 := by omega
  unfold get_sjis_offset
  rw [if_neg (by omega), henc]
  unfold modeDispatch
  rw [hmode]
  exact scanBlocks_eq_walk f.rom (a0 * 256 + a1) f.char_sz f.headersz h16
    f.codeblocks 0 0 (by omega) hwf

/-! ## Claim theorems -/

/-- C1: for a Shift-JIS-mode descriptor and a character that encodes to the
16-bit code unit `a0 * 256 + a1`, `get_sjis_offset` equals the spec's table
walk: scan the `codeblocks` entries in table order with accumulator
`charcnt` starting at 0; at the first entry with `start ≤ sjis ≤ end` return
`headersz + (charcnt + (sjis - start)) * char_sz`, otherwise add
`end - start + 1` to `charcnt` and continue. -/
theorem C1_sjis_table_walk (f : FONTX) (c : Nat) (enc : EncodeOutcome)
    (a0 a1 : Nat) (hmode : f.code = FONTXCode.ShiftJIS)
    (hlen : 18 + 4 * f.codeblocks ≤ f.rom.length)
    (hwf : ∀ p ∈ tableEntriesFrom f.rom 0 f.codeblocks, p.1 ≤ p.2)
    (hc : c ≤ 0xFFFF) (henc : sjisArr enc = Except.ok (a0, a1)) :
    get_sjis_offset f c enc =
      wrapWalk (specResolveWalk f.headersz f.char_sz (a0 * 256 + a1)
        (tableEntriesFrom f.rom 0 f.codeblocks) 0) :=
  get_sjis_offset_eq_walk f c enc a0 a1 hmode hlen hwf hc henc

/-- Witness for C1 at the concrete Shift-JIS font `sjisD` and code unit
`0x8245` (second table entry). -/
theorem C1_sjis_table_walk_witness :
    get_sjis_offset sjisD 0x306E (EncodeOutcome.written2 130 69) =
      wrapWalk (specResolveWalk sjisD.headersz sjisD.char_sz (130 * 256 + 69)
        (tableEntriesFrom sjisD.rom 0 sjisD.codeblocks) 0) :=
  C1_sjis_table_walk sjisD 0x306E (EncodeOutcome.written2 130 69) 130 69 rfl
    (by decide) (by decide) (by decide) rfl

/-- C2 (code bug): the character `A` (scalar `0x41`) Shift-JIS-encodes to the
single byte `0x41`, yet on an ANK descriptor `get_sjis_offset` rejects it
with `UnsupportedCharacter` instead of returning
`headersz + 0x41 * char_sz`, because the lone byte is assembled into the
high half of `sjis_code`. -/
theorem C2_ank_single_byte_bug :
    get_sjis_offset ankD 0x41 (EncodeOutcome.written1 0x41) =
      some (Except.error RenderFailureReason.UnsupportedCharacter) ∧
    get_sjis_offset ankD 0x41 (EncodeOutcome.written1 0x41) ≠
      some (Except.ok (ankD.headersz + 0x41 * ankD.char_sz)) :=
  ⟨rfl, by decide⟩

/-- C3 counterexample: on a Shift-JIS font whose single table entry is the
inverted range `[1, 0]`, the lookup of code unit `0x306E` neither returns an
offset nor fails with `UnsupportedCharacter`: the u16 computation
`eb - sb + 1` underflows (`none` models the checked-arithmetic panic). -/
theorem C3_inverted_range_counterexample :
    get_sjis_offset badD 0x306E (EncodeOutcome.written2 0x30 0x6E) = none ∧
    (¬ ∃ off, get_sjis_offset badD 0x306E (EncodeOutcome.written2 0x30 0x6E) =
        some (Except.ok off)) ∧
    get_sjis_offset badD 0x306E (EncodeOutcome.written2 0x30 0x6E) ≠
      some (Except.error RenderFailureReason.UnsupportedCharacter) := by
  refine ⟨rfl, ?_, by decide⟩
  rintro ⟨off, h⟩
  rw [show get_sjis_offset badD 0x306E (EncodeOutcome.written2 0x30 0x6E) = none
    from rfl] at h
  exact Option.noConfusion h

/-- C3 (amended): when every table entry is well-formed (`start ≤ end`) and
the table lies within `rom`, the Shift-JIS lookup is total: it either
returns a first-match offset or fails with `UnsupportedCharacter`, never
panicking; an inverted entry instead underflows the u16 length computation. -/
theorem C3_lookup_total_wf (f : FONTX) (c : Nat) (enc : EncodeOutcome)
    (a0 a1 : Nat) (hmode : f.code = FONTXCode.ShiftJIS)
    (hlen : 18 + 4 * f.codeblocks ≤ f.rom.length)
    (hwf : ∀ p ∈ tableEntriesFrom f.rom 0 f.codeblocks, p.1 ≤ p.2)
    (hc : c ≤ 0xFFFF) (henc : sjisArr enc = Except.ok (a0, a1)) :
    (∃ off, get_sjis_offset f c enc = some (Except.ok off)) ∨
    get_sjis_offset f c enc =
      some (Except.error RenderFailureReason.UnsupportedCharacter) := by
  rw [get_sjis_offset_eq_walk f c enc a0 a1 hmode hlen hwf hc henc]
  cases h : specResolveWalk f.headersz f.char_sz (a0 * 256 + a1)
      (tableEntriesFrom f.rom 0 f.codeblocks) 0 with
  | none => exact Or.inr rfl
  | some off => exact Or.inl ⟨off, rfl⟩

/-- Witness for the amended C3 at the concrete Shift-JIS font `sjisD`. -/
theorem C3_lookup_total_wf_witness :
    (∃ off, get_sjis_offset sjisD 0x306E (EncodeOutcome.written2 0x82 0x45) =
        some (Except.ok off)) ∨
    get_sjis_offset sjisD 0x306E (EncodeOutcome.written2 0x82 0x45) =
      some (Except.error RenderFailureReason.UnsupportedCharacter) :=
  C3_lookup_total_wf sjisD 0x306E (EncodeOutcome.written2 0x82 0x45) 0x82 0x45
    rfl (by decide) (by decide) (by decide) rfl

/-- C4 (code bug): on a truncated font (`ankRom` is the bare 18-byte header),
the resolved range `[17, 17 + char_sz)` exceeds `rom.length = 18`, and
`render` panics on the slice `rom[off..char_sz + off]` (`none`) instead of
returning `UnknownError`. -/
theorem C4_render_truncated_bug :
    get_sjis_offset ankD 0 (EncodeOutcome.written1 0) = some (Except.ok 17) ∧
    ankD.rom.length < 17 + ankD.char_sz ∧
    render ankD 0 (EncodeOutcome.written1 0) (List.replicate 8 0) = none ∧
    render ankD 0 (EncodeOutcome.written1 0) (List.replicate 8 0) ≠
      some (Except.error RenderFailureReason.UnknownError) :=
  ⟨rfl, by decide, rfl, by decide⟩

/-- C5 counterexample: on the empty byte sequence (shorter than 6 bytes) the
constructor does not fail with `InvalidFormat`; the unchecked 18-byte header
copy reads past the end of the blob (`none`). -/
theorem C5_short_blob_counterexample :
    FONTX.new [] = none ∧
    FONTX.new [] ≠ some (Except.error InitializationError.InvalidFormat) :=
  ⟨rfl, by decide⟩

/-- C5 (amended): for every byte sequence of length at least 18 whose first
6 bytes are not the ASCII magic `FONTX2`, the constructor fails with
`InvalidFormat` and produces no descriptor. -/
theorem C5_bad_magic_invalid (rom : List Nat) (hlen : 18 ≤ rom.length)
    (hmg : [byteAt rom 0, byteAt rom 1, byteAt rom 2, byteAt rom 3,
            byteAt rom 4, byteAt rom 5] ≠ magicFONTX2) :
    FONTX.new rom = some (Except.error InitializationError.InvalidFormat) := by
  unfold FONTX.new
  rw [if_neg (by omega), if_neg hmg]

/-- Witness for the amended C5: 18 zero bytes. -/
theorem C5_bad_magic_invalid_witness :
    FONTX.new (List.replicate 18 0) =
      some (Except.error InitializationError.InvalidFormat) :=
  C5_bad_magic_invalid (List.replicate 18 0) (by decide) (by decide)

/-- C6 (code bug): on the 6-byte blob holding exactly the magic `FONTX2`
(shorter than 18 bytes), the constructor does not fail with
`InvalidFormat`: the unchecked 18-byte header copy reads past the end of
the blob (`none`). -/
theorem C6_short_blob_bug :
    FONTX.new magicFONTX2 = none ∧
    FONTX.new magicFONTX2 ≠ some (Except.error InitializationError.InvalidFormat) :=
  ⟨rfl, by decide⟩

/-- C7: for every blob the constructor accepts, `code_flag = 0` yields an ANK
descriptor with `codeblocks = 0` and `headersz = 17` (byte 17 is not part of
the offset), and `code_flag = 1` yields a Shift-JIS descriptor with
`codeblocks` equal to byte 17 and `headersz = 18 + 4 * codeblocks`; any
other `code_flag` on an 18-byte-or-longer blob makes the constructor fail
with `InvalidFormat`. -/
theorem C7_header_fields (rom : List Nat) :
    (∀ d : FONTX, FONTX.new rom = some (Except.ok d) →
      ((byteAt rom 16 = 0 →
          d.code = FONTXCode.ANK ∧ d.codeblocks = 0 ∧ d.headersz = 17) ∧
       (byteAt rom 16 = 1 →
          d.code = FONTXCode.ShiftJIS ∧ d.codeblocks = byteAt rom 17 ∧
          d.headersz = 18 + 4 * byteAt rom 17))) ∧
    (18 ≤ rom.length → byteAt rom 16 ≠ 0 → byteAt rom 16 ≠ 1 →
      FONTX.new rom = some (Except.error InitializationError.InvalidFormat)) := by
  constructor
  · intro d h
    by_cases hl : rom.length < 18
    · rw [FONTX.new, if_pos hl] at h
      exact Option.noConfusion h
    · by_cases hmg : [byteAt rom 0, byteAt rom 1, byteAt rom 2, byteAt rom 3,
          byteAt rom 4, byteAt rom 5] = magicFONTX2
      · constructor
        · intro h16
          rw [FONTX.new, if_neg hl, if_pos hmg, h16] at h
          obtain rfl : _ = d := by
            injection h with h1
            injection h1
          exact ⟨rfl, rfl, rfl⟩
        · intro h16
          rw [FONTX.new, if_neg hl, if_pos hmg, h16] at h
          obtain rfl : _ = d := by
            injection h with h1
            injection h1
          refine ⟨rfl, rfl, ?_⟩
          show 18 + byteAt rom 17 * 4 = 18 + 4 * byteAt rom 17
          omega
      · rw [FONTX.new, if_neg hl, if_neg hmg] at h
        injection h with h1
        exact Except.noConfusion h1
  · intro hlen h0 h1
    have hl : ¬ rom.length < 18 := by omega
    obtain ⟨m, hm⟩ : ∃ m, byteAt rom 16 = m + 2 := ⟨byteAt rom 16 - 2, by omega⟩
    by_cases hmg : [byteAt rom 0, byteAt rom 1, byteAt rom 2, byteAt rom 3,
        byteAt rom 4, byteAt rom 5] = magicFONTX2
    · rw [FONTX.new, if_neg hl, if_pos hmg, hm]
      rfl
    · rw [FONTX.new, if_neg hl, if_neg hmg]

/-- Witness for C7: the Shift-JIS header of `sjisRom` and the rejected
`code_flag = 2` blob. -/
theorem C7_header_fields_witness :
    (sjisD.code = FONTXCode.ShiftJIS ∧ sjisD.codeblocks = byteAt sjisRom 17 ∧
      sjisD.headersz = 18 + 4 * byteAt sjisRom 17) ∧
    FONTX.new flag2Rom = some (Except.error InitializationError.InvalidFormat) :=
  ⟨((C7_header_fields sjisRom).1 sjisD (by decide)).2 (by decide),
   (C7_header_fields flag2Rom).2 (by decide) (by decide) (by decide)⟩

/-- C8: on a Shift-JIS descriptor whose table is in bounds and well-formed, a
code unit covered by no table entry always resolves to
`UnsupportedCharacter`: the scan never succeeds and never panics on an
out-of-bounds read. -/
theorem C8_no_range_unsupported (f : FONTX) (c : Nat) (enc : EncodeOutcome)
    (a0 a1 : Nat) (hmode : f.code = FONTXCode.ShiftJIS)
    (hlen : 18 + 4 * f.codeblocks ≤ f.rom.length)
    (hwf : ∀ p ∈ tableEntriesFrom f.rom 0 f.codeblocks, p.1 ≤ p.2)
    (hc : c ≤ 0xFFFF) (henc : sjisArr enc = Except.ok (a0, a1))
    (hno : ∀ p ∈ tableEntriesFrom f.rom 0 f.codeblocks,
      ¬(p.1 ≤ a0 * 256 + a1 ∧ a0 * 256 + a1 ≤ p.2)) :
    get_sjis_offset f c enc =
      some (Except.error RenderFailureReason.UnsupportedCharacter) := by
  rw [get_sjis_offset_eq_walk f c enc a0 a1 hmode hlen hwf hc henc,
    specResolveWalk_none f.headersz f.char_sz (a0 * 256 + a1) _ 0 hno]
  rfl

/-- Witness for C8: code unit `0x9000` lies in neither table range of
`sjisD`. -/
theorem C8_no_range_unsupported_witness :
    get_sjis_offset sjisD 0x1234 (EncodeOutcome.written2 0x90 0x00) =
      some (Except.error RenderFailureReason.UnsupportedCharacter) :=
  C8_no_range_unsupported sjisD 0x1234 (EncodeOutcome.written2 0x90 0x00)
    0x90 0x00 rfl (by decide) (by decide) (by decide) rfl (by decide)

/-- C9: on a Shift-JIS descriptor with a well-formed in-bounds table, two
code units `u < v` covered by exactly the same table entries (in particular
both covered by exactly one and the same range) resolve to offsets with
`offset(v) = offset(u) + (v - u) * char_sz`; when `char_sz > 0` the offset
is strictly increasing in the code unit. -/
theorem C9_offset_monotonic (f : FONTX) (cu cv u v : Nat)
    (encU encV : EncodeOutcome) (hmode : f.code = FONTXCode.ShiftJIS)
    (hlen : 18 + 4 * f.codeblocks ≤ f.rom.length)
    (hwf : ∀ p ∈ tableEntriesFrom f.rom 0 f.codeblocks, p.1 ≤ p.2)
    (hcu : cu ≤ 0xFFFF) (hcv : cv ≤ 0xFFFF)
    (hU : sjisArr encU = Except.ok (u / 256, u % 256))
    (hV : sjisArr encV = Except.ok (v / 256, v % 256))
    (huv : u < v)
    (hiff : ∀ p ∈ tableEntriesFrom f.rom 0 f.codeblocks,
      (p.1 ≤ u ∧ u ≤ p.2) ↔ (p.1 ≤ v ∧ v ≤ p.2))
    (hex : ∃ p ∈ tableEntriesFrom f.rom 0 f.codeblocks, p.1 ≤ u ∧ u ≤ p.2) :
    ∃ offU, get_sjis_offset f cu encU = some (Except.ok offU) ∧
      get_sjis_offset f cv encV = some (Except.ok (offU + (v - u) * f.char_sz)) ∧
      (0 < f.char_sz → offU < offU + (v - u) * f.char_sz) := by
  have hu : u / 256 * 256 + u % 256 = u := by omega
  have hv : v / 256 * 256 + v % 256 = v := by omega
  obtain ⟨offU, h1, h2⟩ := specResolveWalk_mono f.headersz f.char_sz u v
    (Nat.le_of_lt huv) (tableEntriesFrom f.rom 0 f.codeblocks) 0 hiff hex
  refine ⟨offU, ?_, ?_, ?_⟩
  · rw [get_sjis_offset_eq_walk f cu encU _ _ hmode hlen hwf hcu hU, hu, h1]
    rfl
  · rw [get_sjis_offset_eq_walk f cv encV _ _ hmode hlen hwf hcv hV, hv, h2]
    rfl
  · intro hcs
    have := Nat.mul_pos (show 0 < v - u by omega) hcs
    omega

/-- Witness for C9: code units `0x8141 < 0x8143`, both inside the first table
range of `sjisD` and outside the second. -/
theorem C9_offset_monotonic_witness :
    ∃ offU, get_sjis_offset sjisD 0x306E (EncodeOutcome.written2 0x81 0x41) =
        some (Except.ok offU) ∧
      get_sjis_offset sjisD 0x306F (EncodeOutcome.written2 0x81 0x43) =
        some (Except.ok (offU + (33091 - 33089) * sjisD.char_sz)) ∧
      (0 < sjisD.char_sz → offU < offU + (33091 - 33089) * sjisD.char_sz) :=
  C9_offset_monotonic sjisD 0x306E 0x306F 33089 33091
    (EncodeOutcome.written2 0x81 0x41) (EncodeOutcome.written2 0x81 0x43)
    rfl (by decide) (by decide) (by decide) (by decide) (by decide) (by decide)
    (by omega) (by decide) (by decide)

/-- C10: when the encoder writes the single byte `b`, `get_sjis_offset`
assembles the code unit as `256 * b` (lone byte in the high half, low byte
0) and compares that value against the ANK limit and the code-block ranges;
in ANK mode every nonzero single-byte encoding is therefore rejected. -/
theorem C10_single_byte_high (f : FONTX) (c b : Nat) (hb : b < 256)
    (hc : c ≤ 0xFFFF) :
    get_sjis_offset f c (EncodeOutcome.written1 b) = modeDispatch f (256 * b) ∧
    (f.code = FONTXCode.ANK → 0 < b →
      get_sjis_offset f c (EncodeOutcome.written1 b) =
        some (Except.error RenderFailureReason.UnsupportedCharacter)) := by
  have hmod : b % 256 = b := Nat.mod_eq_of_lt hb
  have hassemble : get_sjis_offset f c (EncodeOutcome.written1 b) =
      modeDispatch f (256 * b) := by
    unfold get_sjis_offset
    rw [if_neg (by omega)]
    simp only [sjisArr, hmod]
    rw [show b * 256 + 0 = 256 * b by ring]
  refine ⟨hassemble, ?_⟩
  intro hANK hpos
  rw [hassemble]
  unfold modeDispatch
  rw [hANK, if_neg (by omega)]

/-- Witness for C10 at the ANK descriptor `ankD` and byte `0x41`. -/
theorem C10_single_byte_high_witness :
    get_sjis_offset ankD 0x41 (EncodeOutcome.written1 0x41) =
      modeDispatch ankD (256 * 0x41) ∧
    (ankD.code = FONTXCode.ANK → 0 < 0x41 →
      get_sjis_offset ankD 0x41 (EncodeOutcome.written1 0x41) =
        some (Except.error RenderFailureReason.UnsupportedCharacter)) :=
  C10_single_byte_high ankD 0x41 0x41 (by decide) (by decide)
